import Mathlib

/-!
# SSHWatchUploadWebpackPlugin (src/index.js)

A shallow embedding of the plugin class of `src/index.js`.  The plugin object (`this`) is a
record; the collaborators it talks to (the `node-ssh` transport, `console.log`, `open`, the
compiler's hook registry) are represented by a chronological trace of the calls made to them
and by the promises that are still in flight.  Every method is a function on that world state.

Asynchrony is explicit: a call of `ssh.putFile` leaves a pending promise behind, and the moment
the transport settles it is a separate event (`Event.putFileSettled`) that may interleave freely
with the notifications sent by webpack.
-/

namespace SSHWatchUpload

/-! ## JavaScript values -/

/-- The JavaScript values the plugin can be handed in its options object.  `obj` stands for any
object or function reference (always truthy, never equal to a primitive); numbers are
restricted to integers, which is all that truthiness needs. -/
inductive JSVal where
  | undefined
  | null
  | bool (b : Bool)
  | num (n : Int)
  | str (s : String)
  | obj
  deriving DecidableEq, Repr

/-- The ToBoolean conversion used by `!x`, `x ? a : b`, `if (x)` and `&&`. -/
def JSVal.truthy : JSVal → Bool
  | .undefined => false
  | .null => false
  | .bool b => b
  | .num n => n != 0
  | .str s => s != ""
  | .obj => true

/-- A default parameter value (`domain = false` in the constructor's destructuring pattern)
replaces exactly the value `undefined`. -/
def JSVal.withDefault (v d : JSVal) : JSVal :=
  if v = .undefined then d else v

/-! ## Observable calls -/

/-- The categories of lines the plugin writes with `console.log`.  The chalk colouring and the
wall-clock `timestamp()` are presentation and are left out; the interpolated subject of each
line is kept. -/
inductive LogMsg where
  | modeWarning
  | missingOption (key : String)
  | connected
  | uploading (file : String)
  | uploadComplete (file : String)
  | uploadError (error : JSVal)
  deriving DecidableEq, Repr

/-- One call made by the plugin to a collaborator. -/
inductive Effect where
  | log (m : LogMsg)
  | sshConnect (host port username passphrase privateKey : JSVal)
  | putFile (localPath serverPath : String)
  | dispose
  | openBrowser (domain : JSVal)
  deriving DecidableEq, Repr

/-! ## Promises -/

/-- How a promise settles. -/
inductive Settlement where
  | fulfilled (value : JSVal)
  | rejected (reason : JSVal)
  deriving DecidableEq, Repr

/-- How a callback finishes. -/
inductive Completion where
  | returns (value : JSVal)
  | throws (error : JSVal)
  deriving DecidableEq, Repr

/-- The promise returned by `then` settles according to the way the callback finished. -/
def Completion.toSettlement : Completion → Settlement
  | .returns v => .fulfilled v
  | .throws e => .rejected e

/-- The reaction `p.then(onFulfilled, onRejected)` at the moment `p` settles with `s`: the
callback matching the settlement runs, and the derived promise settles with its completion.
Without an `onRejected` callback a rejection is passed through. -/
def promiseThen (s : Settlement) (onFulfilled : JSVal → List Effect × Completion)
    (onRejected : Option (JSVal → List Effect × Completion)) : List Effect × Settlement :=
  match s with
  | .fulfilled v => ((onFulfilled v).1, (onFulfilled v).2.toSettlement)
  | .rejected r =>
    match onRejected with
    | none => ([], .rejected r)
    | some h => ((h r).1, (h r).2.toSettlement)

/-- The call `console.log(...)`: writes one line and returns `undefined`. -/
def consoleLog (m : LogMsg) : List Effect × Completion :=
  ([.log m], .returns .undefined)

/-! ## The plugin object -/

/-- The options object destructured by the constructor. -/
structure Options where
  mode : JSVal
  host : JSVal
  port : JSVal
  username : JSVal
  passphrase : JSVal
  privateKey : JSVal
  uploadPath : String
  domain : JSVal
  openDomain : JSVal
  uploadLaravelManifest : JSVal
  deriving DecidableEq, Repr

/-- The fields of `this`.  `cache` lists the own properties of the `cache` object, most recent
assignment first; `ssh` is represented by the calls recorded in the world's trace. -/
structure SSHWatchUploadWebpackPlugin where
  cache : List (String × String)
  outputPath : String
  mode : JSVal
  host : JSVal
  port : JSVal
  username : JSVal
  passphrase : JSVal
  privateKey : JSVal
  domain : JSVal
  openDomain : JSVal
  uploadPath : String
  uploadLaravelManifest : JSVal
  isFirstUpload : Bool
  deriving DecidableEq, Repr

/-- The constructor. -/
def SSHWatchUploadWebpackPlugin.new (o : Options) : SSHWatchUploadWebpackPlugin :=
  { cache := []
    outputPath := ""
    mode := o.mode
    host := o.host
    port := o.port
    username := o.username
    passphrase := o.passphrase
    privateKey := o.privateKey
    domain := o.domain.withDefault (.bool false)
    openDomain := o.openDomain.withDefault (.bool false)
    uploadPath := o.uploadPath
    uploadLaravelManifest := o.uploadLaravelManifest.withDefault (.bool false)
    isFirstUpload := true }

/-- The part of `compiler.options` the plugin reads. -/
structure Compiler where
  outputPath : String
  watch : JSVal
  deriving DecidableEq, Repr

/-- The part of a `Stats` object the plugin reads: the own property names of
`stats.compilation.assets` in enumeration order, and `stats.compilation.compiler`. -/
structure Stats where
  assets : List String
  compiler : Compiler
  deriving DecidableEq, Repr

/-- The plugin together with its surroundings: which compiler hooks hold a tap of the plugin,
whether the promise of `ssh.connect` is still pending, the pending `putFile` promises (each with
the file whose `uploadAsset` call created it), the registered
`Promise.all(promises).then(() => this.ssh.dispose())` reactions (each with the promises it is
still waiting for), and the chronological trace of calls. -/
structure World where
  self : SSHWatchUploadWebpackPlugin
  assetEmittedTapped : Bool
  doneTapped : Bool
  connectPending : Bool
  nextId : Nat
  pending : List (Nat × String)
  joins : List (List Nat)
  trace : List Effect
  deriving DecidableEq, Repr

/-- A plugin that has just been constructed, before `apply`. -/
def World.fresh (o : Options) : World :=
  { self := SSHWatchUploadWebpackPlugin.new o
    assetEmittedTapped := false
    doneTapped := false
    connectPending := false
    nextId := 0
    pending := []
    joins := []
    trace := [] }

/-! ## The fingerprint cache -/

/-- Property names every plain object inherits from `Object.prototype`. -/
def objectPrototypeKeys : List String :=
  ["constructor", "__defineGetter__", "__defineSetter__", "hasOwnProperty", "__lookupGetter__",
   "__lookupSetter__", "isPrototypeOf", "propertyIsEnumerable", "toString", "valueOf",
   "toLocaleString"]

/-- The read `this.cache[key]` on the plain object `this.cache = {}`: an own property if there
is one, otherwise an inherited member of `Object.prototype`, otherwise `undefined`.  The key
`__proto__` is an accessor that yields the prototype object. -/
def cacheRead (cache : List (String × String)) (key : String) : JSVal :=
  if key = "__proto__" then .obj
  else
    match cache.lookup key with
    | some h => .str h
    | none => if key ∈ objectPrototypeKeys then .obj else .undefined

/-- The assignment `this.cache[key] = value` of a string: creates or overwrites the own
property, except for `__proto__`, whose setter ignores a value that is not an object. -/
def cacheWrite (cache : List (String × String)) (key value : String) : List (String × String) :=
  if key = "__proto__" then cache else (key, value) :: cache

/-- The method `getCacheValueByKey(key)`. -/
def getCacheValueByKey (p : SSHWatchUploadWebpackPlugin) (key : String) : JSVal :=
  if (cacheRead p.cache key).truthy then cacheRead p.cache key else .bool false

/-- The method `setCacheValueByKey(key, value)`, given `value.compilation.fullHash`. -/
def setCacheValueByKey (p : SSHWatchUploadWebpackPlugin) (key fullHash : String) :
    SSHWatchUploadWebpackPlugin :=
  { p with cache := cacheWrite p.cache key fullHash }

/-! ## Uploading -/

/-- The synchronous part of `uploadAsset(file)`: the log line, the `putFile` call, and the
promise `putFile(...).then(...)` handed back (named by the number of the transfer). -/
def uploadAsset (w : World) (file : String) : World × Nat :=
  ({ w with
      trace := w.trace ++
        [.log (.uploading file),
         .putFile (w.self.outputPath ++ "/" ++ file) (w.self.uploadPath ++ "/" ++ file)]
      pending := w.pending ++ [(w.nextId, file)]
      nextId := w.nextId + 1 },
   w.nextId)

/-- The reaction installed by `uploadAsset(file)` on the promise of `putFile`: both callbacks
write a log line. -/
def uploadAssetSettled (file : String) (s : Settlement) : List Effect × Settlement :=
  promiseThen s (fun _ => consoleLog (.uploadComplete file))
    (some (fun error => consoleLog (.uploadError error)))

/-- The method `hook(file, info)`, given `info.compilation.fullHash`. -/
def hook (w : World) (file fullHash : String) : World :=
  if getCacheValueByKey w.self file = .str fullHash then w
  else (uploadAsset { w with self := setCacheValueByKey w.self file fullHash } file).1

/-- The loop `for (let asset of assets) promises.push(this.uploadAsset(asset))`. -/
def uploadAssets (w : World) (promises : List Nat) : List String → World × List Nat
  | [] => (w, promises)
  | asset :: rest =>
    uploadAssets (uploadAsset w asset).1 (promises ++ [(uploadAsset w asset).2]) rest

/-- The statement `Promise.all(promises).then(() => this.ssh.dispose())` for promises created
in the same synchronous run (all still pending).  With nothing to wait for the callback runs
as soon as the current run ends. -/
def disposeWhenAllSettle (w : World) (promises : List Nat) : World :=
  if promises = [] then { w with trace := w.trace ++ [.dispose] }
  else { w with joins := w.joins ++ [promises] }

/-- The method `doneHook(stats)`. -/
def doneHook (w : World) (stats : Stats) : World :=
  if stats.assets.length = 0 then w
  else
    let m : World × List Nat :=
      if w.self.uploadLaravelManifest.truthy then
        ((uploadAsset w "mix-manifest.json").1, [(uploadAsset w "mix-manifest.json").2])
      else (w, [])
    if !m.1.self.isFirstUpload then m.1
    else
      let u := uploadAssets { m.1 with self := { m.1.self with isFirstUpload := false } } m.2
        stats.assets
      if stats.compiler.watch = .bool false then disposeWhenAllSettle u.1 u.2 else u.1

/-! ## Connecting -/

/-- The method `validateConnectionOptions(options)`: `Object.keys(options).every(...)` visits
the keys in order and stops at the first falsy value, after logging it. -/
def validateConnectionOptions : List (String × JSVal) → List Effect × Bool
  | [] => ([], true)
  | (key, value) :: rest =>
    if value.truthy then validateConnectionOptions rest
    else ([.log (.missingOption key)], false)

/-- The method `connect()`, with its return value. -/
def connect (w : World) : World × JSVal :=
  let v := validateConnectionOptions
    [("host", w.self.host), ("port", w.self.port), ("username", w.self.username),
     ("privateKey", w.self.privateKey)]
  if !v.2 then ({ w with trace := w.trace ++ v.1 }, .bool false)
  else
    ({ w with
        trace := w.trace ++ v.1 ++
          [.sshConnect w.self.host w.self.port w.self.username w.self.passphrase
            w.self.privateKey]
        connectPending := true },
     .undefined)

/-- The reaction installed by `connect()` on the promise of `ssh.connect`; a rejection has no
callback and stays unhandled. -/
def connectSettled (w : World) (s : Settlement) : World :=
  if w.connectPending then
    { w with
        connectPending := false
        trace := w.trace ++ (promiseThen s (fun _ => consoleLog .connected) none).1 }
  else w

/-- The method `openTheme()`: calls `open` with the URL built from `this.domain`. -/
def openTheme (w : World) : World :=
  { w with trace := w.trace ++ [.openBrowser w.self.domain] }

/-- The method `init(compiler)`. -/
def init (w : World) (compiler : Compiler) : World :=
  let c := (connect w).1
  let o : World := { c with self := { c.self with outputPath := compiler.outputPath } }
  if o.self.openDomain.truthy && o.self.domain.truthy then openTheme o else o

/-- The method `apply(compiler)`. -/
def apply (w : World) (compiler : Compiler) : World :=
  if w.self.mode ≠ .str "development" then { w with trace := w.trace ++ [.log .modeWarning] }
  else
    let i := init w compiler
    let t : World :=
      if compiler.watch = .bool true then { i with assetEmittedTapped := true } else i
    { t with doneTapped := true }

/-! ## Events -/

/-- What `Promise.all(promises).then(() => this.ssh.dispose())` does when the promise `id`
returned by some `uploadAsset` settles with `s`, for every registered reaction: a rejection
rejects `Promise.all` (the callback never runs), a fulfilment takes `id` off the waiting list
and runs the callback when the list is exhausted. -/
def notifyJoins (id : Nat) (s : Settlement) : List (List Nat) → List (List Nat) × List Effect
  | [] => ([], [])
  | j :: rest =>
    if id ∈ j then
      match s with
      | .rejected _ => notifyJoins id s rest
      | .fulfilled _ =>
        if j.filter (fun k => k != id) = [] then
          ((notifyJoins id s rest).1, Effect.dispose :: (notifyJoins id s rest).2)
        else (j.filter (fun k => k != id) :: (notifyJoins id s rest).1, (notifyJoins id s rest).2)
    else (j :: (notifyJoins id s rest).1, (notifyJoins id s rest).2)

/-- The transport settles the `putFile` promise number `id` with `s`.  A promise settles once:
a number that is not pending is ignored. -/
def putFileSettled (w : World) (id : Nat) (s : Settlement) : World :=
  match w.pending.find? (fun t => t.1 == id) with
  | none => w
  | some t =>
    { w with
        pending := w.pending.filter (fun t => t.1 != id)
        joins := (notifyJoins id (uploadAssetSettled t.2 s).2 w.joins).1
        trace := w.trace ++ (uploadAssetSettled t.2 s).1 ++
          (notifyJoins id (uploadAssetSettled t.2 s).2 w.joins).2 }

/-- What can happen to the plugin after `apply`: the two webpack notifications, and the
transport settling one of its promises. -/
inductive Event where
  | assetEmitted (file : String) (fullHash : String)
  | done (stats : Stats)
  | putFileSettled (id : Nat) (s : Settlement)
  | connectSettled (s : Settlement)
  deriving DecidableEq, Repr

/-- One event.  A notification reaches the plugin only through a tap made by `apply`. -/
def step (w : World) : Event → World
  | .assetEmitted file fullHash => if w.assetEmittedTapped then hook w file fullHash else w
  | .done stats => if w.doneTapped then doneHook w stats else w
  | .putFileSettled id s => putFileSettled w id s
  | .connectSettled s => connectSettled w s

/-- A sequence of events. -/
def run (w : World) (es : List Event) : World :=
  es.foldl step w

/-! ## Reading a trace -/

/-- The arguments of the `putFile` calls, in order. -/
def putFileCalls : List Effect → List (String × String)
  | [] => []
  | .putFile l r :: rest => (l, r) :: putFileCalls rest
  | _ :: rest => putFileCalls rest

/-- The number of `ssh.connect` calls. -/
def connectCount : List Effect → Nat
  | [] => 0
  | .sshConnect _ _ _ _ _ :: rest => connectCount rest + 1
  | _ :: rest => connectCount rest

/-- The number of `ssh.dispose` calls. -/
def disposeCount : List Effect → Nat
  | [] => 0
  | .dispose :: rest => disposeCount rest + 1
  | _ :: rest => disposeCount rest

/-- The keys named by the missing-option warnings, in order. -/
def missingWarnings : List Effect → List String
  | [] => []
  | .log (.missingOption key) :: rest => key :: missingWarnings rest
  | _ :: rest => missingWarnings rest

/-- The local and remote path `uploadAsset(file)` passes to `putFile`. -/
def transferOf (w : World) (file : String) : String × String :=
  (w.self.outputPath ++ "/" ++ file, w.self.uploadPath ++ "/" ++ file)

/-- Whether the events contain a settlement of the `putFile` promise `id`. -/
def settledIn (es : List Event) (id : Nat) : Bool :=
  es.any fun e =>
    match e with
    | .putFileSettled k _ => k == id
    | _ => false

/-! ## Vocabulary of the statements -/

/-- Whether `host`, `port`, `username` and `privateKey` are all present and non-empty, that is,
truthy. -/
def requiredFieldsPresent (p : SSHWatchUploadWebpackPlugin) : Bool :=
  p.host.truthy && p.port.truthy && p.username.truthy && p.privateKey.truthy

/-- A sample configuration: development mode, complete credentials, no passphrase, every
optional setting left out. -/
def sampleOptions : Options :=
  { mode := .str "development"
    host := .str "example.org"
    port := .num 22
    username := .str "deploy"
    passphrase := .undefined
    privateKey := .str "/home/deploy/.ssh/id_rsa"
    uploadPath := "/var/www/theme"
    domain := .undefined
    openDomain := .undefined
    uploadLaravelManifest := .undefined }

/-- A compiler started for a single build. -/
def oneShotCompiler : Compiler :=
  { outputPath := "/work/dist", watch := .bool false }

/-- A compiler started in watch mode. -/
def watchCompiler : Compiler :=
  { outputPath := "/work/dist", watch := .bool true }

/-- The calls made by `uploadAsset` for each of the files in turn. -/
def uploadTrace (p : SSHWatchUploadWebpackPlugin) : List String → List Effect
  | [] => []
  | file :: rest =>
    .log (.uploading file) ::
      .putFile (p.outputPath ++ "/" ++ file) (p.uploadPath ++ "/" ++ file) :: uploadTrace p rest

/-- Whether `v` has the settings of `w` that are fixed once `init` has run (the two path roots,
the manifest switch, the mode), the same taps, and a bootstrap flag that has not been raised
again. -/
def Keeps (w v : World) : Prop :=
  v.self.outputPath = w.self.outputPath ∧ v.self.uploadPath = w.self.uploadPath ∧
    v.self.uploadLaravelManifest = w.self.uploadLaravelManifest ∧ v.self.mode = w.self.mode ∧
    v.assetEmittedTapped = w.assetEmittedTapped ∧ v.doneTapped = w.doneTapped ∧
    (w.self.isFirstUpload = false → v.self.isFirstUpload = false)

/-- The files uploaded by the bootstrap `doneHook`, in order: the manifest when it is switched
on, then the emitted assets. -/
def bootstrapFiles (w : World) (stats : Stats) : List String :=
  (if w.self.uploadLaravelManifest.truthy then ["mix-manifest.json"] else []) ++ stats.assets

/-- The sample configuration with the manifest upload switched on. -/
def manifestOptions : Options :=
  { sampleOptions with uploadLaravelManifest := .bool true }

/-- The sample configuration without a private key (and without a passphrase). -/
def keylessOptions : Options :=
  { sampleOptions with privateKey := .undefined }

/-- The sample configuration in production mode. -/
def productionOptions : Options :=
  { sampleOptions with mode := .str "production" }

/-- Whether the event comes from the transport (a promise settling) rather than from webpack. -/
def Event.isTransport : Event → Bool
  | .putFileSettled _ _ => true
  | .connectSettled _ => true
  | _ => false

/-- Whether two worlds agree on everything the upload path reads or writes: the cache, the two
path roots, the manifest switch, the bootstrap flag, the taps, the promises in flight, the
registered disposals, and the `putFile` calls made so far.  Credentials, the connection
promise and the other calls are left free. -/
def SameUploads (w v : World) : Prop :=
  w.self.cache = v.self.cache ∧ w.self.outputPath = v.self.outputPath ∧
    w.self.uploadPath = v.self.uploadPath ∧
    w.self.uploadLaravelManifest = v.self.uploadLaravelManifest ∧
    w.self.isFirstUpload = v.self.isFirstUpload ∧
    w.assetEmittedTapped = v.assetEmittedTapped ∧ w.doneTapped = v.doneTapped ∧
    w.nextId = v.nextId ∧ w.pending = v.pending ∧ w.joins = v.joins ∧
    putFileCalls w.trace = putFileCalls v.trace

/-! ## Reading a trace piecewise -/

theorem putFileCalls_append (a b : List Effect) :
    putFileCalls (a ++ b) = putFileCalls a ++ putFileCalls b := by
  induction a with
  | nil => rfl
  | cons e a ih => cases e <;> simp [putFileCalls, ih]

theorem connectCount_append (a b : List Effect) :
    connectCount (a ++ b) = connectCount a + connectCount b := by
  induction a with
  | nil => simp [connectCount]
  | cons e a ih =>
    cases e <;> simp [connectCount, ih]
    omega

theorem disposeCount_append (a b : List Effect) :
    disposeCount (a ++ b) = disposeCount a + disposeCount b := by
  induction a with
  | nil => simp [disposeCount]
  | cons e a ih =>
    cases e <;> simp [disposeCount, ih]
    omega

theorem missingWarnings_append (a b : List Effect) :
    missingWarnings (a ++ b) = missingWarnings a ++ missingWarnings b := by
  induction a with
  | nil => rfl
  | cons e a ih =>
    cases e with
    | log m => cases m <;> simp [missingWarnings, ih]
    | _ => simp [missingWarnings, ih]

/-- The reaction of `uploadAsset` writes one log line, whatever the transport reports. -/
theorem uploadAssetSettled_fst (file : String) (s : Settlement) :
    ∃ m, (uploadAssetSettled file s).1 = [Effect.log m] := by
  cases s <;> simp [uploadAssetSettled, promiseThen, consoleLog]

/-- The promise returned by `uploadAsset` is fulfilled, whatever the transport reports. -/
theorem uploadAssetSettled_snd (file : String) (s : Settlement) :
    (uploadAssetSettled file s).2 = .fulfilled .undefined := by
  cases s <;> simp [uploadAssetSettled, promiseThen, consoleLog, Completion.toSettlement]

/-! ## C10 and C5: validation of the connection options -/

/-- C10: `connect()` issues exactly one transport connect call (with the five stored fields)
when host, port, username and privateKey are all present and non-empty, and none otherwise,
in which case it returns `false` and only logs; replacing the passphrase by any other value,
missing or not, changes neither the number of connect calls nor the returned value. -/
theorem connect_attempt_iff_required_fields (w : World) :
    (connect w).1.trace =
        w.trace ++
          (validateConnectionOptions
            [("host", w.self.host), ("port", w.self.port), ("username", w.self.username),
             ("privateKey", w.self.privateKey)]).1 ++
          (if requiredFieldsPresent w.self then
            [Effect.sshConnect w.self.host w.self.port w.self.username w.self.passphrase
              w.self.privateKey]
           else [])
      ∧ connectCount (connect w).1.trace =
        connectCount w.trace + (if requiredFieldsPresent w.self then 1 else 0)
      ∧ (connectCount (connect w).1.trace = connectCount w.trace + 1 ↔
          requiredFieldsPresent w.self = true)
      ∧ (connect w).2 = (if requiredFieldsPresent w.self then JSVal.undefined else JSVal.bool false)
      ∧ (connect w).1.connectPending = (w.connectPending || requiredFieldsPresent w.self)
      ∧ ∀ passphrase : JSVal,
          connectCount (connect { w with self := { w.self with passphrase := passphrase } }).1.trace
              = connectCount (connect w).1.trace
            ∧ (connect { w with self := { w.self with passphrase := passphrase } }).2
              = (connect w).2 := by
  rcases hh : w.self.host.truthy <;> rcases hp : w.self.port.truthy <;>
    rcases hu : w.self.username.truthy <;> rcases hk : w.self.privateKey.truthy <;>
    simp [connect, validateConnectionOptions, requiredFieldsPresent, hh, hp, hu, hk,
      connectCount_append, connectCount]

/-! ## C5 -/

/-- C5, as stated, fails: with `privateKey` and `passphrase` both missing, `connect()` writes a
single missing-option warning, for `privateKey`; none names `passphrase`. -/
theorem connect_missing_key_and_passphrase_single_warning :
    missingWarnings
        (connect (World.fresh keylessOptions)).1.trace
      = ["privateKey"]
    ∧ (missingWarnings
        (connect (World.fresh keylessOptions)).1.trace).length
      ≠ 2
    ∧ "passphrase" ∉ missingWarnings
        (connect (World.fresh keylessOptions)).1.trace := by
  decide

/-- C5, amended: with host, port and username present and `privateKey` missing, whatever the
passphrase (in particular when it is missing too), `connect()` fails validation: it returns
`false`, makes no transport connect call, and writes exactly one missing-option warning, which
names `privateKey`. -/
theorem connect_missing_privateKey_one_warning (w : World)
    (hh : w.self.host.truthy = true) (hp : w.self.port.truthy = true)
    (hu : w.self.username.truthy = true) (hk : w.self.privateKey.truthy = false) :
    (connect w).1.trace = w.trace ++ [Effect.log (.missingOption "privateKey")]
      ∧ missingWarnings (connect w).1.trace = missingWarnings w.trace ++ ["privateKey"]
      ∧ connectCount (connect w).1.trace = connectCount w.trace
      ∧ (connect w).2 = JSVal.bool false := by
  simp [connect, validateConnectionOptions, hh, hp, hu, hk, missingWarnings_append,
    missingWarnings, connectCount_append, connectCount]

/-- C5, amended, on the sample configuration without private key and passphrase. -/
theorem connect_missing_privateKey_one_warning_witness :
    (connect (World.fresh keylessOptions)).1.trace
        = (World.fresh keylessOptions).trace
          ++ [Effect.log (.missingOption "privateKey")]
      ∧ missingWarnings
          (connect (World.fresh keylessOptions)).1.trace
        = missingWarnings (World.fresh keylessOptions).trace
          ++ ["privateKey"]
      ∧ connectCount
          (connect (World.fresh keylessOptions)).1.trace
        = connectCount (World.fresh keylessOptions).trace
      ∧ (connect (World.fresh keylessOptions)).2
        = JSVal.bool false :=
  connect_missing_privateKey_one_warning
    (World.fresh keylessOptions)
    (by decide) (by decide) (by decide) (by decide)

/-! ## C9 -/

/-- A world without taps and without pending promises ignores every event. -/
theorem run_inert (w : World) (es : List Event) (ha : w.assetEmittedTapped = false)
    (hd : w.doneTapped = false) (hc : w.connectPending = false) (hp : w.pending = []) :
    run w es = w := by
  induction es with
  | nil => rfl
  | cons e es ih =>
    have hs : step w e = w := by
      cases e <;> simp [step, putFileSettled, connectSettled, ha, hd, hc, hp]
    simpa [run, hs] using ih

/-- C9: outside development mode `apply(compiler)` only writes the mode warning: no transport
connect call, no tap on `assetEmitted` or `done`; and whatever notifications and transport
events follow, the world stays as `apply` left it, so that no connect call and no `putFile`
call ever occurs. -/
theorem apply_outside_development_is_inert (o : Options) (c : Compiler) (es : List Event)
    (hm : o.mode ≠ JSVal.str "development") :
    apply (World.fresh o) c = { World.fresh o with trace := [Effect.log .modeWarning] }
      ∧ (apply (World.fresh o) c).assetEmittedTapped = false
      ∧ (apply (World.fresh o) c).doneTapped = false
      ∧ run (apply (World.fresh o) c) es = apply (World.fresh o) c
      ∧ connectCount (run (apply (World.fresh o) c) es).trace = 0
      ∧ putFileCalls (run (apply (World.fresh o) c) es).trace = [] := by
  have ha : apply (World.fresh o) c = { World.fresh o with trace := [Effect.log .modeWarning] } := by
    simp [apply, World.fresh, SSHWatchUploadWebpackPlugin.new, hm]
  have hr : run (apply (World.fresh o) c) es = apply (World.fresh o) c := by
    rw [ha]
    exact run_inert _ es rfl rfl rfl rfl
  refine ⟨ha, ?_, ?_, hr, ?_, ?_⟩
  · rw [ha]; rfl
  · rw [ha]; rfl
  · rw [hr, ha]; rfl
  · rw [hr, ha]; rfl

/-- C9 on the sample configuration in production mode, with a watching compiler. -/
theorem apply_outside_development_is_inert_witness :
    apply (World.fresh productionOptions) watchCompiler
        = { World.fresh productionOptions with
            trace := [Effect.log .modeWarning] }
      ∧ (apply (World.fresh productionOptions)
          watchCompiler).assetEmittedTapped = false
      ∧ (apply (World.fresh productionOptions)
          watchCompiler).doneTapped = false
      ∧ run (apply (World.fresh productionOptions) watchCompiler)
          [.assetEmitted "app.js" "3f2a", .done { assets := ["app.js"], compiler := watchCompiler }]
        = apply (World.fresh productionOptions) watchCompiler
      ∧ connectCount
          (run (apply (World.fresh productionOptions) watchCompiler)
            [.assetEmitted "app.js" "3f2a",
             .done { assets := ["app.js"], compiler := watchCompiler }]).trace = 0
      ∧ putFileCalls
          (run (apply (World.fresh productionOptions) watchCompiler)
            [.assetEmitted "app.js" "3f2a",
             .done { assets := ["app.js"], compiler := watchCompiler }]).trace = [] :=
  apply_outside_development_is_inert productionOptions
    watchCompiler
    [.assetEmitted "app.js" "3f2a", .done { assets := ["app.js"], compiler := watchCompiler }]
    (by decide)

/-! ## C3 -/

/-- C3, as stated, fails: on a fresh plugin with manifest upload disabled, a first `doneHook`
without emitted assets leaves `isFirstUpload` at `true` and, on a one-shot build, registers no
disposal and disposes nothing. -/
theorem doneHook_no_assets_leaves_bootstrap_open :
    (doneHook (World.fresh sampleOptions)
        { assets := [], compiler := oneShotCompiler }).self.isFirstUpload = true
      ∧ (doneHook (World.fresh sampleOptions)
        { assets := [], compiler := oneShotCompiler }).joins = []
      ∧ disposeCount (doneHook (World.fresh sampleOptions)
        { assets := [], compiler := oneShotCompiler }).trace = 0 := by
  decide

/-- C3, amended: a `doneHook` whose stats contain no emitted asset returns at once and changes
nothing; on a fresh plugin it issues no upload attempt, leaves `isFirstUpload` at `true`, and
neither registers nor performs a disposal, on a one-shot build as on any other. -/
theorem doneHook_no_assets_is_noop (w : World) (o : Options) (c : Compiler) :
    doneHook w { assets := [], compiler := c } = w
      ∧ putFileCalls (doneHook (World.fresh o) { assets := [], compiler := c }).trace = []
      ∧ (doneHook (World.fresh o) { assets := [], compiler := c }).self.isFirstUpload = true
      ∧ (doneHook (World.fresh o) { assets := [], compiler := c }).joins = []
      ∧ disposeCount (doneHook (World.fresh o) { assets := [], compiler := c }).trace = 0 := by
  have h : ∀ v : World, doneHook v { assets := [], compiler := c } = v := by
    intro v
    simp [doneHook]
  refine ⟨h w, ?_, ?_, ?_, ?_⟩ <;> rw [h] <;> rfl

/-! ## The upload loop in closed form -/

theorem uploadAssets_eq (w : World) (promises : List Nat) (files : List String) :
    uploadAssets w promises files =
      ({ w with
          trace := w.trace ++ uploadTrace w.self files
          pending := w.pending ++ List.enumFrom w.nextId files
          nextId := w.nextId + files.length },
       promises ++ List.range' w.nextId files.length) := by
  induction files generalizing w promises with
  | nil => simp [uploadAssets, uploadTrace]
  | cons f files ih =>
    simp [uploadAssets, ih, uploadAsset, uploadTrace, List.enumFrom, List.range', Nat.add_assoc,
      Nat.add_comm 1]

theorem putFileCalls_uploadTrace (w : World) (files : List String) :
    putFileCalls (uploadTrace w.self files) = files.map (transferOf w) := by
  induction files with
  | nil => rfl
  | cons f files ih => simp [uploadTrace, putFileCalls, ih, transferOf]

theorem disposeCount_uploadTrace (p : SSHWatchUploadWebpackPlugin) (files : List String) :
    disposeCount (uploadTrace p files) = 0 := by
  induction files with
  | nil => rfl
  | cons f files ih => simp [uploadTrace, disposeCount, ih]

theorem connectCount_uploadTrace (p : SSHWatchUploadWebpackPlugin) (files : List String) :
    connectCount (uploadTrace p files) = 0 := by
  induction files with
  | nil => rfl
  | cons f files ih => simp [uploadTrace, connectCount, ih]

theorem uploadTrace_congr (p q : SSHWatchUploadWebpackPlugin) (files : List String)
    (ho : p.outputPath = q.outputPath) (hu : p.uploadPath = q.uploadPath) :
    uploadTrace p files = uploadTrace q files := by
  induction files with
  | nil => rfl
  | cons f files ih => simp [uploadTrace, ih, ho, hu]

theorem uploadTrace_lowered (p : SSHWatchUploadWebpackPlugin) (files : List String) :
    uploadTrace { p with isFirstUpload := false } files = uploadTrace p files :=
  uploadTrace_congr _ _ files rfl rfl

/-! ## `doneHook` in closed form -/

theorem doneHook_first (w : World) (stats : Stats) (hf : w.self.isFirstUpload = true)
    (ha : stats.assets ≠ []) :
    doneHook w stats =
      { w with
        self := { w.self with isFirstUpload := false }
        trace := w.trace ++ uploadTrace w.self (bootstrapFiles w stats)
        pending := w.pending ++ List.enumFrom w.nextId (bootstrapFiles w stats)
        nextId := w.nextId + (bootstrapFiles w stats).length
        joins := w.joins ++
          (if stats.compiler.watch = .bool false then
            [List.range' w.nextId (bootstrapFiles w stats).length]
           else []) } := by
  obtain ⟨a, rest, hs⟩ := List.exists_cons_of_ne_nil ha
  by_cases hm : w.self.uploadLaravelManifest.truthy = true <;>
    by_cases hw : stats.compiler.watch = .bool false <;>
    simp [doneHook, hf, hs, hm, hw, uploadAssets_eq, uploadAsset, disposeWhenAllSettle,
      bootstrapFiles, uploadTrace, uploadTrace_lowered, List.enumFrom, List.range', Nat.add_assoc, Nat.add_comm 1]

theorem doneHook_later (w : World) (stats : Stats) (hf : w.self.isFirstUpload = false)
    (ha : stats.assets ≠ []) :
    doneHook w stats =
      if w.self.uploadLaravelManifest.truthy then (uploadAsset w "mix-manifest.json").1 else w := by
  obtain ⟨a, rest, hs⟩ := List.exists_cons_of_ne_nil ha
  by_cases hm : w.self.uploadLaravelManifest.truthy = true <;>
    simp [doneHook, hf, hs, hm, uploadAsset]

theorem doneHook_empty (w : World) (stats : Stats) (ha : stats.assets = []) :
    doneHook w stats = w := by
  simp [doneHook, ha]

/-! ## What every event keeps -/

theorem Keeps.refl (w : World) : Keeps w w := by
  simp [Keeps]

theorem Keeps.trans {u v w : World} (h1 : Keeps u v) (h2 : Keeps v w) : Keeps u w := by
  obtain ⟨a1, a2, a3, a4, a5, a6, a7⟩ := h1
  obtain ⟨b1, b2, b3, b4, b5, b6, b7⟩ := h2
  exact ⟨b1.trans a1, b2.trans a2, b3.trans a3, b4.trans a4, b5.trans a5, b6.trans a6,
    fun h => b7 (a7 h)⟩

theorem hook_keeps (w : World) (file fullHash : String) : Keeps w (hook w file fullHash) := by
  by_cases h : getCacheValueByKey w.self file = .str fullHash <;>
    simp [hook, h, Keeps, uploadAsset, setCacheValueByKey]

theorem doneHook_keeps (w : World) (stats : Stats) : Keeps w (doneHook w stats) := by
  by_cases ha : stats.assets = []
  · rw [doneHook_empty w stats ha]; exact Keeps.refl w
  · cases hf : w.self.isFirstUpload
    · rw [doneHook_later w stats hf ha]
      split <;> simp [Keeps, uploadAsset]
    · rw [doneHook_first w stats hf ha]
      simp [Keeps, hf]

theorem putFileSettled_keeps (w : World) (id : Nat) (s : Settlement) :
    Keeps w (putFileSettled w id s) := by
  unfold putFileSettled
  split <;> simp [Keeps]

theorem connectSettled_keeps (w : World) (s : Settlement) : Keeps w (connectSettled w s) := by
  unfold connectSettled
  split <;> simp [Keeps]

theorem step_keeps (w : World) (e : Event) : Keeps w (step w e) := by
  cases e with
  | assetEmitted file fullHash =>
    simp only [step]
    split
    · exact hook_keeps w file fullHash
    · exact Keeps.refl w
  | done stats =>
    simp only [step]
    split
    · exact doneHook_keeps w stats
    · exact Keeps.refl w
  | putFileSettled id s => exact putFileSettled_keeps w id s
  | connectSettled s => exact connectSettled_keeps w s

theorem run_cons (w : World) (e : Event) (es : List Event) :
    run w (e :: es) = run (step w e) es := rfl

theorem run_keeps (w : World) (es : List Event) : Keeps w (run w es) := by
  induction es generalizing w with
  | nil => exact Keeps.refl w
  | cons e es ih => exact Keeps.trans (step_keeps w e) (ih (step w e))

/-! ## C2 -/

/-- C2: on a plugin that has not yet done its first upload and has the manifest upload switched
on, a `doneHook` reporting `n ≥ 1` emitted assets issues exactly `n + 1` `putFile` calls, for
`mix-manifest.json` and for each asset, and lowers `isFirstUpload`; after that, whatever
events come in between, a `doneHook` reporting at least one asset issues exactly one `putFile`
call, for `mix-manifest.json`. -/
theorem doneHook_bootstrap_then_manifest_only (w : World) (first later : Stats)
    (es : List Event) (hf : w.self.isFirstUpload = true)
    (hm : w.self.uploadLaravelManifest.truthy = true) (h1 : first.assets ≠ [])
    (h2 : later.assets ≠ []) :
    putFileCalls (doneHook w first).trace =
        putFileCalls w.trace ++
          transferOf w "mix-manifest.json" :: first.assets.map (transferOf w)
      ∧ (putFileCalls (doneHook w first).trace).length =
        (putFileCalls w.trace).length + (first.assets.length + 1)
      ∧ (doneHook w first).self.isFirstUpload = false
      ∧ (run (doneHook w first) es).self.isFirstUpload = false
      ∧ putFileCalls (doneHook (run (doneHook w first) es) later).trace =
        putFileCalls (run (doneHook w first) es).trace ++ [transferOf w "mix-manifest.json"]
      ∧ (putFileCalls (doneHook (run (doneHook w first) es) later).trace).length =
        (putFileCalls (run (doneHook w first) es).trace).length + 1 := by
  have hcalls : putFileCalls (doneHook w first).trace =
      putFileCalls w.trace ++
        transferOf w "mix-manifest.json" :: first.assets.map (transferOf w) := by
    rw [doneHook_first w first hf h1]
    simp [putFileCalls_append, putFileCalls_uploadTrace, bootstrapFiles, hm]
  have hlow : (doneHook w first).self.isFirstUpload = false := by
    rw [doneHook_first w first hf h1]
  have hk := Keeps.trans (doneHook_keeps w first) (run_keeps (doneHook w first) es)
  obtain ⟨ko, ku, km, -, -, -, -⟩ := hk
  have hlow2 : (run (doneHook w first) es).self.isFirstUpload = false :=
    (run_keeps (doneHook w first) es).2.2.2.2.2.2 hlow
  have hlater : putFileCalls (doneHook (run (doneHook w first) es) later).trace =
      putFileCalls (run (doneHook w first) es).trace ++ [transferOf w "mix-manifest.json"] := by
    rw [doneHook_later _ later hlow2 h2, km, hm]
    simp [uploadAsset, putFileCalls_append, putFileCalls, transferOf, ko, ku]
  refine ⟨hcalls, ?_, hlow, hlow2, hlater, ?_⟩
  · rw [hcalls]; simp
  · rw [hlater]; simp

/-- C2 on a fresh plugin: `a.js` and `b.css` give three uploads, the next build-done one. -/
theorem doneHook_bootstrap_then_manifest_only_witness :
    putFileCalls (doneHook (World.fresh manifestOptions)
        { assets := ["a.js", "b.css"], compiler := watchCompiler }).trace =
      [("/mix-manifest.json", "/var/www/theme/mix-manifest.json"),
       ("/a.js", "/var/www/theme/a.js"), ("/b.css", "/var/www/theme/b.css")]
    ∧ (doneHook (World.fresh manifestOptions)
        { assets := ["a.js", "b.css"], compiler := watchCompiler }).self.isFirstUpload = false
    ∧ (putFileCalls (doneHook (doneHook
        (World.fresh manifestOptions)
        { assets := ["a.js", "b.css"], compiler := watchCompiler })
        { assets := ["a.js", "b.css"], compiler := watchCompiler }).trace).length = 3 + 1 := by
  have h := doneHook_bootstrap_then_manifest_only
    (World.fresh manifestOptions)
    { assets := ["a.js", "b.css"], compiler := watchCompiler }
    { assets := ["a.js", "b.css"], compiler := watchCompiler } []
    (by decide) (by decide) (by decide) (by decide)
  exact ⟨h.1.trans (by decide), h.2.2.1, h.2.2.2.2.2.trans (by decide)⟩

/-! ## Settlements leave the plugin object and the uploads alone -/

theorem notifyJoins_effects (id : Nat) (s : Settlement) (joins : List (List Nat)) :
    putFileCalls (notifyJoins id s joins).2 = [] ∧ connectCount (notifyJoins id s joins).2 = 0 := by
  induction joins with
  | nil => exact ⟨rfl, rfl⟩
  | cons j rest ih =>
    unfold notifyJoins
    split
    · cases s with
      | fulfilled v =>
        simp only []
        split <;> simp [putFileCalls, connectCount, ih.1, ih.2]
      | rejected r => simpa using ih
    · simpa using ih

theorem putFileSettled_self (w : World) (id : Nat) (s : Settlement) :
    (putFileSettled w id s).self = w.self := by
  unfold putFileSettled
  split <;> rfl

theorem putFileCalls_putFileSettled (w : World) (id : Nat) (s : Settlement) :
    putFileCalls (putFileSettled w id s).trace = putFileCalls w.trace := by
  unfold putFileSettled
  split
  · rfl
  · rename_i t _
    obtain ⟨m, hm⟩ := uploadAssetSettled_fst t.2 s
    simp [putFileCalls_append, hm, putFileCalls, (notifyJoins_effects _ _ _).1]

theorem connectSettled_self (w : World) (s : Settlement) : (connectSettled w s).self = w.self := by
  unfold connectSettled
  split <;> rfl

theorem putFileCalls_connectSettled (w : World) (s : Settlement) :
    putFileCalls (connectSettled w s).trace = putFileCalls w.trace := by
  unfold connectSettled
  split
  · cases s <;> simp [putFileCalls_append, promiseThen, consoleLog, putFileCalls]
  · rfl

theorem run_transport (w : World) (es : List Event) (hes : ∀ e ∈ es, e.isTransport = true) :
    (run w es).self = w.self ∧ putFileCalls (run w es).trace = putFileCalls w.trace := by
  induction es generalizing w with
  | nil => exact ⟨rfl, rfl⟩
  | cons e es ih =>
    have he := hes e (List.mem_cons_self e es)
    have ih1 := ih (step w e) (fun x hx => hes x (List.mem_cons_of_mem e hx))
    rw [run_cons]
    cases e with
    | assetEmitted f h => simp [Event.isTransport] at he
    | done st => simp [Event.isTransport] at he
    | putFileSettled id s =>
      exact ⟨ih1.1.trans (putFileSettled_self w id s),
        ih1.2.trans (putFileCalls_putFileSettled w id s)⟩
    | connectSettled s =>
      exact ⟨ih1.1.trans (connectSettled_self w s), ih1.2.trans (putFileCalls_connectSettled w s)⟩

/-! ## C8 -/

/-- C8: `uploadAsset(file)` issues exactly one `putFile` call, from the output root joined
with the file name to the upload root joined with the file name, and the promise it returns is
fulfilled both when `putFile` resolves and when it rejects; the reaction only writes a log
line, and no settlement of any transfer leads to a further `putFile` call. -/
theorem uploadAsset_single_putFile_swallows_failure (w : World) (file : String) :
    (uploadAsset w file).1.trace =
        w.trace ++ [Effect.log (.uploading file),
          Effect.putFile (w.self.outputPath ++ "/" ++ file) (w.self.uploadPath ++ "/" ++ file)]
      ∧ putFileCalls (uploadAsset w file).1.trace =
        putFileCalls w.trace ++
          [(w.self.outputPath ++ "/" ++ file, w.self.uploadPath ++ "/" ++ file)]
      ∧ (∀ v, uploadAssetSettled file (.fulfilled v) =
          ([Effect.log (.uploadComplete file)], .fulfilled .undefined))
      ∧ (∀ error, uploadAssetSettled file (.rejected error) =
          ([Effect.log (.uploadError error)], .fulfilled .undefined))
      ∧ (∀ (id : Nat) (s : Settlement),
          putFileCalls (putFileSettled (uploadAsset w file).1 id s).trace =
            putFileCalls (uploadAsset w file).1.trace) := by
  refine ⟨rfl, ?_, ?_, ?_, fun id s => putFileCalls_putFileSettled _ id s⟩
  · simp [uploadAsset, putFileCalls_append, putFileCalls]
  · intro v
    simp [uploadAssetSettled, promiseThen, consoleLog, Completion.toSettlement]
  · intro error
    simp [uploadAssetSettled, promiseThen, consoleLog, Completion.toSettlement]

/-! ## `hook` in closed form -/

theorem hook_skip (w : World) (file fullHash : String)
    (h : getCacheValueByKey w.self file = .str fullHash) : hook w file fullHash = w := by
  simp [hook, h]

theorem hook_upload (w : World) (file fullHash : String)
    (h : getCacheValueByKey w.self file ≠ .str fullHash) :
    (hook w file fullHash).self = setCacheValueByKey w.self file fullHash
      ∧ putFileCalls (hook w file fullHash).trace = putFileCalls w.trace ++ [transferOf w file] := by
  simp [hook, h, uploadAsset, putFileCalls_append, putFileCalls, transferOf, setCacheValueByKey]

/-- The cached value is a string only when it is a recorded, non-empty fingerprint. -/
theorem getCacheValueByKey_eq_str (p : SSHWatchUploadWebpackPlugin) (key h : String)
    (hg : getCacheValueByKey p key = .str h) :
    p.cache.lookup key = some h ∧ h ≠ "" ∧ key ≠ "__proto__" := by
  unfold getCacheValueByKey cacheRead at hg
  by_cases hk : key = "__proto__"
  · simp [hk, JSVal.truthy] at hg
  · cases hl : p.cache.lookup key with
    | none =>
      by_cases hm : key ∈ objectPrototypeKeys <;> simp [hk, hl, hm, JSVal.truthy] at hg
    | some x =>
      by_cases hx : x = ""
      · simp [hk, hl, hx, JSVal.truthy] at hg
      · simp [hk, hl, hx, JSVal.truthy] at hg
        subst hg
        exact ⟨rfl, hx, hk⟩

/-- A recorded, non-empty fingerprint under a key other than `__proto__` is what
`getCacheValueByKey` returns. -/
theorem getCacheValueByKey_recorded (p : SSHWatchUploadWebpackPlugin) (key h : String)
    (hl : p.cache.lookup key = some h) (hh : h ≠ "") (hk : key ≠ "__proto__") :
    getCacheValueByKey p key = .str h := by
  simp [getCacheValueByKey, cacheRead, hk, hl, hh, JSVal.truthy]

theorem lookup_cacheWrite (cache : List (String × String)) (key h : String)
    (hk : key ≠ "__proto__") : (cacheWrite cache key h).lookup key = some h := by
  simp [cacheWrite, hk, List.lookup]

/-! ## C1 -/

/-- The edge of the domain of fingerprints and identifiers: webpack's `fullHash` is a non-empty
digest and no asset is emitted under the name `__proto__`.  Outside that domain
`getCacheValueByKey` reads the empty string as no record, and an assignment to the key
`__proto__` of the cache object records nothing, so a repeated observation is transferred
again. -/
theorem hook_outside_fingerprint_domain :
    putFileCalls (hook (hook (World.fresh sampleOptions) "a.js" "") "a.js" "").trace =
        [("/a.js", "/var/www/theme/a.js"), ("/a.js", "/var/www/theme/a.js")]
      ∧ (putFileCalls (hook (hook (World.fresh sampleOptions) "a.js" "") "a.js" "").trace).length
        ≠ 1
      ∧ putFileCalls
          (hook (hook (World.fresh sampleOptions) "__proto__" "3f2a") "__proto__" "3f2a").trace =
        [("/__proto__", "/var/www/theme/__proto__"), ("/__proto__", "/var/www/theme/__proto__")] := by
  decide

/-- C1: starting from a cache without a record for `A`, whatever the transport does to the
promises in flight in between (so whether or not the first transfer succeeded), `hook(A, H1)`
followed by `hook(A, H1)` issues exactly one `putFile` call, for `A`, and `hook(A, H1)`
followed by `hook(A, H2)` with `H1 ≠ H2` issues exactly two, both for `A`.  Identifiers and
fingerprints are those webpack delivers: `H1` is a non-empty digest and `A` is not
`__proto__` (the second half needs neither condition). -/
theorem hook_once_per_fingerprint (w : World) (A H1 H2 : String) (es : List Event)
    (hrec : w.self.cache.lookup A = none) (hes : ∀ e ∈ es, e.isTransport = true) :
    (A ≠ "__proto__" → H1 ≠ "" →
        putFileCalls (hook (run (hook w A H1) es) A H1).trace =
          putFileCalls w.trace ++ [transferOf w A])
      ∧ (H1 ≠ H2 →
        putFileCalls (hook (run (hook w A H1) es) A H2).trace =
          putFileCalls w.trace ++ [transferOf w A, transferOf w A]) := by
  have hfirst : getCacheValueByKey w.self A ≠ .str H1 := by
    intro hg
    have := (getCacheValueByKey_eq_str w.self A H1 hg).1
    rw [hrec] at this
    cases this
  obtain ⟨hself, hcalls⟩ := hook_upload w A H1 hfirst
  obtain ⟨rself, rcalls⟩ := run_transport (hook w A H1) es hes
  constructor
  · intro hA hH
    have hg : getCacheValueByKey (run (hook w A H1) es).self A = .str H1 := by
      rw [rself, hself]
      exact getCacheValueByKey_recorded _ A H1 (lookup_cacheWrite _ A H1 hA) hH hA
    rw [hook_skip _ A H1 hg, rcalls, hcalls]
  · intro hne
    have hg : getCacheValueByKey (run (hook w A H1) es).self A ≠ .str H2 := by
      intro hg
      obtain ⟨hl, -, hA⟩ := getCacheValueByKey_eq_str _ A H2 hg
      rw [rself, hself] at hl
      simp only [setCacheValueByKey] at hl
      rw [lookup_cacheWrite _ A H1 hA] at hl
      exact hne (Option.some.inj hl)
    have h2 := (hook_upload (run (hook w A H1) es) A H2 hg).2
    rw [h2, rcalls, hcalls]
    have ht : transferOf (run (hook w A H1) es) A = transferOf w A := by
      simp [transferOf, rself, hself, setCacheValueByKey]
    simp [ht]

/-- C1 on a fresh plugin, with the first transfer of `a.js` rejected in between. -/
theorem hook_once_per_fingerprint_witness :
    putFileCalls (hook (run (hook (World.fresh sampleOptions) "a.js" "3f2a")
          [.putFileSettled 0 (.rejected .obj)]) "a.js" "3f2a").trace =
        putFileCalls (World.fresh sampleOptions).trace ++
          [transferOf (World.fresh sampleOptions) "a.js"]
      ∧ putFileCalls (hook (run (hook (World.fresh sampleOptions) "a.js" "3f2a")
          [.putFileSettled 0 (.rejected .obj)]) "a.js" "77c0").trace =
        putFileCalls (World.fresh sampleOptions).trace ++
          [transferOf (World.fresh sampleOptions) "a.js",
           transferOf (World.fresh sampleOptions) "a.js"] :=
  have h := hook_once_per_fingerprint (World.fresh sampleOptions) "a.js" "3f2a" "77c0"
    [.putFileSettled 0 (.rejected .obj)] (by decide) (by decide)
  ⟨h.1 (by decide) (by decide), h.2 (by decide)⟩

/-! ## What `apply` leaves behind -/

theorem connect_frame (w : World) :
    (connect w).1.self = w.self ∧ (connect w).1.joins = w.joins
      ∧ (connect w).1.pending = w.pending ∧ (connect w).1.nextId = w.nextId
      ∧ (connect w).1.assetEmittedTapped = w.assetEmittedTapped
      ∧ (connect w).1.doneTapped = w.doneTapped
      ∧ disposeCount (connect w).1.trace = disposeCount w.trace
      ∧ putFileCalls (connect w).1.trace = putFileCalls w.trace := by
  rcases hh : w.self.host.truthy <;> rcases hp : w.self.port.truthy <;>
    rcases hu : w.self.username.truthy <;> rcases hk : w.self.privateKey.truthy <;>
    simp [connect, validateConnectionOptions, hh, hp, hu, hk, disposeCount_append, disposeCount,
      putFileCalls_append, putFileCalls]

theorem init_frame (w : World) (c : Compiler) :
    (init w c).self = { w.self with outputPath := c.outputPath } ∧ (init w c).joins = w.joins
      ∧ (init w c).pending = w.pending ∧ (init w c).nextId = w.nextId
      ∧ (init w c).assetEmittedTapped = w.assetEmittedTapped
      ∧ (init w c).doneTapped = w.doneTapped
      ∧ disposeCount (init w c).trace = disposeCount w.trace
      ∧ putFileCalls (init w c).trace = putFileCalls w.trace := by
  obtain ⟨h1, h2, h3, h4, h5, h6, h7, h8⟩ := connect_frame w
  unfold init
  simp only []
  split <;>
    simp [openTheme, h1, h2, h3, h4, h5, h6, h7, h8, disposeCount_append, disposeCount,
      putFileCalls_append, putFileCalls]

theorem apply_development (o : Options) (c : Compiler) (hm : o.mode = .str "development") :
    (apply (World.fresh o) c).self =
        { SSHWatchUploadWebpackPlugin.new o with outputPath := c.outputPath }
      ∧ (apply (World.fresh o) c).joins = [] ∧ (apply (World.fresh o) c).pending = []
      ∧ (apply (World.fresh o) c).nextId = 0
      ∧ (apply (World.fresh o) c).assetEmittedTapped = decide (c.watch = .bool true)
      ∧ (apply (World.fresh o) c).doneTapped = true
      ∧ disposeCount (apply (World.fresh o) c).trace = 0
      ∧ putFileCalls (apply (World.fresh o) c).trace = [] := by
  obtain ⟨h1, h2, h3, h4, h5, h6, h7, h8⟩ := init_frame (World.fresh o) c
  have hmode : (World.fresh o).self.mode = .str "development" := hm
  unfold apply
  by_cases hw : c.watch = .bool true <;>
    simp [hmode, hw, h1, h2, h3, h4, h5, h6, h7, h8] <;>
    simp [World.fresh, SSHWatchUploadWebpackPlugin.new, hm, disposeCount, putFileCalls]

/-! ## Events that touch no disposal -/

theorem hook_quiet (w : World) (file fullHash : String) :
    (hook w file fullHash).joins = w.joins
      ∧ disposeCount (hook w file fullHash).trace = disposeCount w.trace
      ∧ ∀ x ∈ w.pending, x ∈ (hook w file fullHash).pending := by
  by_cases h : getCacheValueByKey w.self file = .str fullHash
  · simp [hook, h]
  · refine ⟨?_, ?_, ?_⟩
    · simp [hook, h, uploadAsset]
    · simp [hook, h, uploadAsset, disposeCount_append, disposeCount]
    · intro x hx
      simp [hook, h, uploadAsset, hx]

theorem doneHook_quiet (w : World) (stats : Stats)
    (h : stats.assets = [] ∨ w.self.isFirstUpload = false ∨
      stats.compiler.watch ≠ .bool false) :
    (doneHook w stats).joins = w.joins
      ∧ disposeCount (doneHook w stats).trace = disposeCount w.trace
      ∧ ∀ x ∈ w.pending, x ∈ (doneHook w stats).pending := by
  by_cases ha : stats.assets = []
  · rw [doneHook_empty w stats ha]
    exact ⟨rfl, rfl, fun _ hx => hx⟩
  · cases hf : w.self.isFirstUpload
    · rw [doneHook_later w stats hf ha]
      split
      · refine ⟨rfl, ?_, ?_⟩
        · simp [uploadAsset, disposeCount_append, disposeCount]
        · intro x hx
          simp [uploadAsset, hx]
      · exact ⟨rfl, rfl, fun _ hx => hx⟩
    · have hw : stats.compiler.watch ≠ .bool false := by
        rcases h with h | h | h
        · exact absurd h ha
        · rw [hf] at h; cases h
        · exact h
      rw [doneHook_first w stats hf ha]
      refine ⟨?_, ?_, ?_⟩
      · simp [hw]
      · simp [disposeCount_append, disposeCount_uploadTrace]
      · intro x hx
        simp [hx]

theorem connectSettled_quiet (w : World) (s : Settlement) :
    (connectSettled w s).joins = w.joins
      ∧ disposeCount (connectSettled w s).trace = disposeCount w.trace
      ∧ (connectSettled w s).pending = w.pending := by
  unfold connectSettled
  split
  · cases s <;> simp [promiseThen, consoleLog, disposeCount_append, disposeCount]
  · exact ⟨rfl, rfl, rfl⟩

theorem putFileSettled_noJoin (w : World) (id : Nat) (s : Settlement) (hj : w.joins = []) :
    (putFileSettled w id s).joins = []
      ∧ disposeCount (putFileSettled w id s).trace = disposeCount w.trace := by
  unfold putFileSettled
  split
  · exact ⟨hj, rfl⟩
  · rename_i t _
    obtain ⟨m, hm⟩ := uploadAssetSettled_fst t.2 s
    simp [hj, notifyJoins, hm, disposeCount_append, disposeCount]

/-- Without a registered disposal, and with no further one-shot bootstrap, nothing is ever
disposed. -/
theorem run_noJoin (w : World) (es : List Event) (hj : w.joins = [])
    (hd : ∀ st, Event.done st ∈ es →
      st.assets = [] ∨ w.self.isFirstUpload = false ∨ st.compiler.watch ≠ .bool false) :
    (run w es).joins = [] ∧ disposeCount (run w es).trace = disposeCount w.trace := by
  induction es generalizing w with
  | nil => exact ⟨hj, rfl⟩
  | cons e es ih =>
    rw [run_cons]
    have hstep : (step w e).joins = [] ∧ disposeCount (step w e).trace = disposeCount w.trace := by
      cases e with
      | assetEmitted f h =>
        simp only [step]
        split
        · exact ⟨(hook_quiet w f h).1.trans hj, (hook_quiet w f h).2.1⟩
        · exact ⟨hj, rfl⟩
      | done st =>
        simp only [step]
        split
        · have hq := doneHook_quiet w st (hd st (List.mem_cons_self _ _))
          exact ⟨hq.1.trans hj, hq.2.1⟩
        · exact ⟨hj, rfl⟩
      | putFileSettled id s => exact putFileSettled_noJoin w id s hj
      | connectSettled s =>
        exact ⟨(connectSettled_quiet w s).1.trans hj, (connectSettled_quiet w s).2.1⟩
    have hnext := ih (step w e) hstep.1 (fun st hst => by
      rcases hd st (List.mem_cons_of_mem _ hst) with h | h | h
      · exact Or.inl h
      · exact Or.inr (Or.inl ((step_keeps w e).2.2.2.2.2.2 h))
      · exact Or.inr (Or.inr h))
    exact ⟨hnext.1, hnext.2.trans hstep.2⟩

/-! ## C7 -/

/-- C7: when the plugin is applied to a compiler in watch mode and every build-done
notification comes from that compiler, no sequence of asset-emitted and build-done
notifications and of transport settlements ever calls `ssh.dispose()`; and after any such
sequence, `hook(A, info)` with a `fullHash` that differs from the fingerprint recorded for `A`
(or with none recorded) issues one `putFile` call, for `A`; in development mode the
`assetEmitted` tap through which webpack reaches `hook` is in place. -/
theorem watch_mode_never_disposes_keeps_transferring (o : Options) (c : Compiler)
    (es : List Event) (hw : c.watch = .bool true)
    (hst : ∀ st, Event.done st ∈ es → st.compiler = c) :
    disposeCount (run (apply (World.fresh o) c) es).trace = 0
      ∧ (∀ A H : String, (run (apply (World.fresh o) c) es).self.cache.lookup A ≠ some H →
          putFileCalls (hook (run (apply (World.fresh o) c) es) A H).trace =
            putFileCalls (run (apply (World.fresh o) c) es).trace ++
              [transferOf (run (apply (World.fresh o) c) es) A])
      ∧ (o.mode = .str "development" → ∀ A H : String,
          step (run (apply (World.fresh o) c) es) (.assetEmitted A H) =
            hook (run (apply (World.fresh o) c) es) A H) := by
  refine ⟨?_, ?_, ?_⟩
  · by_cases hm : o.mode = .str "development"
    · obtain ⟨-, hj, -, -, -, -, hd, -⟩ := apply_development o c hm
      have h := run_noJoin (apply (World.fresh o) c) es hj (fun st hs => by
        right
        right
        rw [hst st hs, hw]
        decide)
      rw [h.2, hd]
    · have hr : run (apply (World.fresh o) c) es = apply (World.fresh o) c := by
        apply run_inert <;> simp [apply, World.fresh, SSHWatchUploadWebpackPlugin.new, hm]
      rw [hr]
      simp [apply, World.fresh, SSHWatchUploadWebpackPlugin.new, hm, disposeCount]
  · intro A H hne
    have hg : getCacheValueByKey (run (apply (World.fresh o) c) es).self A ≠ .str H :=
      fun hg => hne (getCacheValueByKey_eq_str _ A H hg).1
    exact (hook_upload _ A H hg).2
  · intro hm A H
    obtain ⟨-, -, -, -, ht, -, -, -⟩ := apply_development o c hm
    have htap : (run (apply (World.fresh o) c) es).assetEmittedTapped = true := by
      rw [(run_keeps (apply (World.fresh o) c) es).2.2.2.2.1, ht]
      simp [hw]
    simp [step, htap]

/-- C7 on a watch session: a bootstrap, a settlement and a first observation of `app.js`,
followed by an observation with another fingerprint. -/
theorem watch_mode_never_disposes_keeps_transferring_witness :
    disposeCount (run (apply (World.fresh sampleOptions) watchCompiler)
        [.done { assets := ["app.js"], compiler := watchCompiler },
         .putFileSettled 0 (.fulfilled .undefined), .assetEmitted "app.js" "3f2a"]).trace = 0
      ∧ putFileCalls (hook (run (apply (World.fresh sampleOptions) watchCompiler)
          [.done { assets := ["app.js"], compiler := watchCompiler },
           .putFileSettled 0 (.fulfilled .undefined),
           .assetEmitted "app.js" "3f2a"]) "app.js" "77c0").trace =
        putFileCalls (run (apply (World.fresh sampleOptions) watchCompiler)
          [.done { assets := ["app.js"], compiler := watchCompiler },
           .putFileSettled 0 (.fulfilled .undefined), .assetEmitted "app.js" "3f2a"]).trace ++
          [transferOf (run (apply (World.fresh sampleOptions) watchCompiler)
            [.done { assets := ["app.js"], compiler := watchCompiler },
             .putFileSettled 0 (.fulfilled .undefined), .assetEmitted "app.js" "3f2a"])
            "app.js"]
      ∧ step (run (apply (World.fresh sampleOptions) watchCompiler)
          [.done { assets := ["app.js"], compiler := watchCompiler },
           .putFileSettled 0 (.fulfilled .undefined),
           .assetEmitted "app.js" "3f2a"]) (.assetEmitted "app.js" "77c0") =
        hook (run (apply (World.fresh sampleOptions) watchCompiler)
          [.done { assets := ["app.js"], compiler := watchCompiler },
           .putFileSettled 0 (.fulfilled .undefined),
           .assetEmitted "app.js" "3f2a"]) "app.js" "77c0" :=
  have h := watch_mode_never_disposes_keeps_transferring sampleOptions watchCompiler
    [.done { assets := ["app.js"], compiler := watchCompiler },
     .putFileSettled 0 (.fulfilled .undefined), .assetEmitted "app.js" "3f2a"]
    (by decide) (by intro st hs; simp at hs; rw [hs])
  ⟨h.1, h.2.1 "app.js" "77c0" (by decide), h.2.2 (by decide) "app.js" "77c0"⟩

/-! ## The disposal registered by a one-shot bootstrap -/

theorem all_congr_on (S : List Nat) (f g : Nat → Bool) (h : ∀ i ∈ S, f i = g i) :
    S.all f = S.all g := by
  rw [Bool.eq_iff_iff, List.all_eq_true, List.all_eq_true]
  exact ⟨fun h1 i hi => (h i hi) ▸ h1 i hi, fun h1 i hi => (h i hi).symm ▸ h1 i hi⟩

theorem settledIn_cons_settled (k : Nat) (s : Settlement) (es : List Event) (id : Nat) :
    settledIn (.putFileSettled k s :: es) id = (k == id || settledIn es id) := by
  simp [settledIn]

theorem settledIn_cons_other (e : Event) (es : List Event) (id : Nat)
    (he : ∀ k s, e ≠ .putFileSettled k s) : settledIn (e :: es) id = settledIn es id := by
  cases e with
  | putFileSettled k s => exact absurd rfl (he k s)
  | _ => simp [settledIn]

theorem putFileSettled_join (w : World) (id : Nat) (s : Settlement) (S : List Nat)
    (hj : w.joins = [S]) (hp : ∀ i ∈ S, ∃ f, (i, f) ∈ w.pending) :
    (putFileSettled w id s).joins =
        (if id ∈ S then (if S.filter (fun k => k != id) = [] then []
          else [S.filter (fun k => k != id)]) else [S])
      ∧ disposeCount (putFileSettled w id s).trace =
        disposeCount w.trace + (if id ∈ S ∧ S.filter (fun k => k != id) = [] then 1 else 0)
      ∧ ∀ i ∈ S, i ≠ id → ∃ f, (i, f) ∈ (putFileSettled w id s).pending := by
  unfold putFileSettled
  split
  · rename_i hnone
    have hid : id ∉ S := by
      intro hmem
      obtain ⟨f, hf⟩ := hp id hmem
      have := List.find?_eq_none.mp hnone (id, f) hf
      simp at this
    refine ⟨by simp [hid, hj], by simp [hid], fun i hi _ => hp i hi⟩
  · rename_i t _
    obtain ⟨m, hm⟩ := uploadAssetSettled_fst t.2 s
    have hs := uploadAssetSettled_snd t.2 s
    refine ⟨?_, ?_, ?_⟩
    · by_cases hid : id ∈ S
      · by_cases hfil : S.filter (fun k => k != id) = [] <;>
          simp [hj, hs, notifyJoins, hid, hfil]
      · simp [hj, hs, notifyJoins, hid]
    · by_cases hid : id ∈ S
      · by_cases hfil : S.filter (fun k => k != id) = [] <;>
          simp [hj, hs, hm, notifyJoins, hid, hfil, disposeCount_append, disposeCount]
      · simp [hj, hs, hm, notifyJoins, hid, disposeCount_append, disposeCount]
    · intro i hi hne
      obtain ⟨f, hf⟩ := hp i hi
      exact ⟨f, by simp [hf, hne]⟩

theorem step_quiet (w : World) (e : Event) (hf : w.self.isFirstUpload = false)
    (he : ∀ k s, e ≠ .putFileSettled k s) :
    (step w e).joins = w.joins ∧ disposeCount (step w e).trace = disposeCount w.trace
      ∧ ∀ x ∈ w.pending, x ∈ (step w e).pending := by
  cases e with
  | assetEmitted f h =>
    simp only [step]
    split
    · exact hook_quiet w f h
    · exact ⟨rfl, rfl, fun _ hx => hx⟩
  | done st =>
    simp only [step]
    split
    · exact doneHook_quiet w st (Or.inr (Or.inl hf))
    · exact ⟨rfl, rfl, fun _ hx => hx⟩
  | putFileSettled k s => exact absurd rfl (he k s)
  | connectSettled s =>
    obtain ⟨h1, h2, h3⟩ := connectSettled_quiet w s
    exact ⟨h1, h2, fun x hx => by simpa [step, h3] using hx⟩

/-- With the bootstrap done and one disposal registered for the promises `S`, all of them in
flight, `ssh.dispose()` is called once, at the moment the last promise of `S` settles. -/
theorem run_join (w : World) (S : List Nat) (es : List Event)
    (hf : w.self.isFirstUpload = false) (hj : w.joins = [S]) (hS : S ≠ [])
    (hp : ∀ i ∈ S, ∃ f, (i, f) ∈ w.pending) :
    disposeCount (run w es).trace =
      disposeCount w.trace + (if S.all (settledIn es) then 1 else 0) := by
  induction es generalizing w S with
  | nil =>
    obtain ⟨a, rest, rfl⟩ := List.exists_cons_of_ne_nil hS
    simp [run, settledIn]
  | cons e es ih =>
    rw [run_cons]
    have hf1 : (step w e).self.isFirstUpload = false := (step_keeps w e).2.2.2.2.2.2 hf
    by_cases he : ∀ k s, e ≠ .putFileSettled k s
    · obtain ⟨q1, q2, q3⟩ := step_quiet w e hf he
      rw [ih (step w e) S hf1 (q1.trans hj) hS
        (fun i hi => (hp i hi).imp fun f hfm => q3 _ hfm), q2]
      have : S.all (settledIn (e :: es)) = S.all (settledIn es) := by
        apply all_congr_on
        intro i _
        exact settledIn_cons_other e es i he
      rw [this]
    · push_neg at he
      obtain ⟨k, s, rfl⟩ := he
      obtain ⟨j1, j2, j3⟩ := putFileSettled_join w k s S hj hp
      simp only [step] at hf1 ⊢
      by_cases hk : k ∈ S
      · by_cases hfil : S.filter (fun i => i != k) = []
        · have hall : S.all (settledIn (.putFileSettled k s :: es)) = true := by
            rw [List.all_eq_true]
            intro i hi
            have : i = k := by
              by_contra hne
              have hmem : i ∈ S.filter (fun i => i != k) := by simp [hi, hne]
              rw [hfil] at hmem
              cases hmem
            simp [settledIn_cons_settled, this]
          have hjoin : (putFileSettled w k s).joins = [] := by simpa [hk, hfil] using j1
          have hrun := run_noJoin (putFileSettled w k s) es hjoin
            (fun _ _ => Or.inr (Or.inl hf1))
          rw [hrun.2, j2, hall]
          simp [hk, hfil]
        · have hjoin : (putFileSettled w k s).joins = [S.filter (fun i => i != k)] := by
            simpa [hk, hfil] using j1
          rw [ih (putFileSettled w k s) _ hf1 hjoin hfil
            (fun i hi => by
              have hi2 := List.mem_filter.mp hi
              exact j3 i hi2.1 (by simpa using hi2.2)), j2]
          have : S.all (settledIn (.putFileSettled k s :: es)) =
              (S.filter (fun i => i != k)).all (settledIn es) := by
            rw [Bool.eq_iff_iff, List.all_eq_true, List.all_eq_true]
            constructor
            · intro h i hi
              have hi2 := List.mem_filter.mp hi
              have hne : i ≠ k := by simpa using hi2.2
              have := h i hi2.1
              rw [settledIn_cons_settled] at this
              simpa [Ne.symm hne] using this
            · intro h i hi
              rw [settledIn_cons_settled]
              by_cases hik : i = k
              · simp [hik]
              · have := h i (List.mem_filter.mpr ⟨hi, by simpa using hik⟩)
                simp [this]
          rw [this]
          simp [hfil]
      · have hjoin : (putFileSettled w k s).joins = [S] := by simpa [hk] using j1
        rw [ih (putFileSettled w k s) S hf1 hjoin hS
          (fun i hi => j3 i hi (fun h => hk (h ▸ hi))), j2]
        have : S.all (settledIn (.putFileSettled k s :: es)) = S.all (settledIn es) := by
          apply all_congr_on
          intro i hi
          rw [settledIn_cons_settled]
          have : k ≠ i := fun h => hk (h ▸ hi)
          simp [this]
        rw [this]
        simp [hk]

/-! ## Before the bootstrap -/

theorem run_append (w : World) (pre es : List Event) :
    run w (pre ++ es) = run (run w pre) es := by
  simp [run, List.foldl_append]

theorem hook_isFirstUpload (w : World) (file fullHash : String) :
    (hook w file fullHash).self.isFirstUpload = w.self.isFirstUpload := by
  by_cases h : getCacheValueByKey w.self file = .str fullHash <;>
    simp [hook, h, uploadAsset, setCacheValueByKey]

/-- Events other than a build-done with assets leave the bootstrap flag as it is. -/
theorem run_before_bootstrap (w : World) (pre : List Event)
    (hpre : ∀ st, Event.done st ∈ pre → st.assets = []) :
    (run w pre).self.isFirstUpload = w.self.isFirstUpload := by
  induction pre generalizing w with
  | nil => rfl
  | cons e pre ih =>
    rw [run_cons, ih (step w e) (fun st hst => hpre st (List.mem_cons_of_mem _ hst))]
    cases e with
    | assetEmitted f h =>
      simp only [step]
      split
      · exact hook_isFirstUpload w f h
      · rfl
    | done st =>
      simp only [step]
      split
      · rw [doneHook_empty w st (hpre st (List.mem_cons_self _ _))]
      · rfl
    | putFileSettled id s => simp [step, putFileSettled_self]
    | connectSettled s => simp [step, connectSettled_self]

/-- The bootstrap `doneHook` of a one-shot build registers one disposal, which is carried out
once, when the last transfer of the batch has settled. -/
theorem doneHook_oneShot (w : World) (first : Stats) (es : List Event)
    (hf : w.self.isFirstUpload = true) (hj : w.joins = []) (ha : first.assets ≠ [])
    (hw : first.compiler.watch = .bool false) :
    (doneHook w first).pending = w.pending ++ List.enumFrom w.nextId (bootstrapFiles w first)
      ∧ putFileCalls (doneHook w first).trace =
        putFileCalls w.trace ++ (bootstrapFiles w first).map (transferOf w)
      ∧ disposeCount (run (doneHook w first) es).trace =
        disposeCount w.trace +
          (if (List.range' w.nextId (bootstrapFiles w first).length).all (settledIn es)
            then 1 else 0) := by
  have hne : bootstrapFiles w first ≠ [] := by
    simp [bootstrapFiles, ha]
  have hlen : (bootstrapFiles w first).length ≠ 0 := by
    simpa using hne
  have hclosed := doneHook_first w first hf ha
  have hpend : (doneHook w first).pending =
      w.pending ++ List.enumFrom w.nextId (bootstrapFiles w first) := by
    rw [hclosed]
  have hjoins : (doneHook w first).joins =
      [List.range' w.nextId (bootstrapFiles w first).length] := by
    rw [hclosed]; simp [hj, hw]
  have hlow : (doneHook w first).self.isFirstUpload = false := by
    rw [hclosed]
  have hdisp : disposeCount (doneHook w first).trace = disposeCount w.trace := by
    rw [hclosed]; simp [disposeCount_append, disposeCount_uploadTrace]
  have hcalls : putFileCalls (doneHook w first).trace =
      putFileCalls w.trace ++ (bootstrapFiles w first).map (transferOf w) := by
    rw [hclosed]; simp [putFileCalls_append, putFileCalls_uploadTrace]
  refine ⟨hpend, hcalls, ?_⟩
  rw [run_join (doneHook w first) _ es hlow hjoins (by simpa using hlen)
    (fun i hi => by
      rw [← List.enumFrom_map_fst w.nextId (bootstrapFiles w first)] at hi
      obtain ⟨x, hx, rfl⟩ := List.mem_map.mp hi
      exact ⟨x.2, by rw [hpend]; exact List.mem_append_right _ hx⟩), hdisp]

/-! ## C6 -/

/-- C6: in development mode, let the first build-done notification that reports at least one
asset come from a compiler whose `watch` option is `false` (before it: anything but a
build-done with assets).  It issues the transfers of the bootstrap batch (the manifest when
switched on, then the assets), and for every sequence of later notifications and transport
settlements the number of `ssh.dispose()` calls is 1 if every transfer of the batch has
settled in that sequence (fulfilled or rejected) and 0 otherwise: never before the whole batch
has settled, once when it has, and never again, whatever build-done notifications follow. -/
theorem oneShot_disposes_once_when_batch_settled (o : Options) (c : Compiler)
    (pre : List Event) (first : Stats) (es : List Event) (hm : o.mode = .str "development")
    (hpre : ∀ st, Event.done st ∈ pre → st.assets = []) (ha : first.assets ≠ [])
    (hw : first.compiler.watch = .bool false) :
    (step (run (apply (World.fresh o) c) pre) (.done first)).pending =
        (run (apply (World.fresh o) c) pre).pending ++
          List.enumFrom (run (apply (World.fresh o) c) pre).nextId
            (bootstrapFiles (run (apply (World.fresh o) c) pre) first)
      ∧ putFileCalls (step (run (apply (World.fresh o) c) pre) (.done first)).trace =
        putFileCalls (run (apply (World.fresh o) c) pre).trace ++
          (bootstrapFiles (run (apply (World.fresh o) c) pre) first).map
            (transferOf (run (apply (World.fresh o) c) pre))
      ∧ disposeCount (run (apply (World.fresh o) c) (pre ++ .done first :: es)).trace =
        if (List.range' (run (apply (World.fresh o) c) pre).nextId
              (bootstrapFiles (run (apply (World.fresh o) c) pre) first).length).all
            (settledIn es) then 1 else 0 := by
  obtain ⟨hself, hj, -, -, -, hd, hdc, -⟩ := apply_development o c hm
  have hfirst : (run (apply (World.fresh o) c) pre).self.isFirstUpload = true := by
    rw [run_before_bootstrap _ pre hpre, hself]; rfl
  have hquiet := run_noJoin (apply (World.fresh o) c) pre hj (fun st hst => Or.inl (hpre st hst))
  have htap : (run (apply (World.fresh o) c) pre).doneTapped = true :=
    (run_keeps (apply (World.fresh o) c) pre).2.2.2.2.2.1.trans hd
  have hstep : step (run (apply (World.fresh o) c) pre) (.done first) =
      doneHook (run (apply (World.fresh o) c) pre) first := by
    simp [step, htap]
  obtain ⟨h1, h2, h3⟩ :=
    doneHook_oneShot (run (apply (World.fresh o) c) pre) first es hfirst hquiet.1 ha hw
  refine ⟨hstep ▸ h1, hstep ▸ h2, ?_⟩
  rw [run_append, run_cons, hstep, h3, hquiet.2, hdc]
  simp

/-- C6 on a one-shot build of `a.js` and `b.css` with manifest, the connection being
established first: one disposal once the three transfers have settled (one of them rejected),
none while `b.css` is still in flight. -/
theorem oneShot_disposes_once_when_batch_settled_witness :
    (step (run (apply (World.fresh manifestOptions) oneShotCompiler)
          [.connectSettled (.fulfilled .undefined)])
        (.done { assets := ["a.js", "b.css"], compiler := oneShotCompiler })).pending =
      [(0, "mix-manifest.json"), (1, "a.js"), (2, "b.css")]
    ∧ disposeCount (run (apply (World.fresh manifestOptions) oneShotCompiler)
        ([.connectSettled (.fulfilled .undefined)] ++
          .done { assets := ["a.js", "b.css"], compiler := oneShotCompiler } ::
          [.putFileSettled 1 (.rejected .obj), .putFileSettled 0 (.fulfilled .undefined),
           .done { assets := ["a.js"], compiler := oneShotCompiler },
           .putFileSettled 2 (.fulfilled .undefined),
           .done { assets := ["a.js"], compiler := oneShotCompiler }])).trace = 1
    ∧ disposeCount (run (apply (World.fresh manifestOptions) oneShotCompiler)
        ([.connectSettled (.fulfilled .undefined)] ++
          .done { assets := ["a.js", "b.css"], compiler := oneShotCompiler } ::
          [.putFileSettled 1 (.rejected .obj), .putFileSettled 0 (.fulfilled .undefined),
           .done { assets := ["a.js"], compiler := oneShotCompiler }])).trace = 0 :=
  ⟨(oneShot_disposes_once_when_batch_settled manifestOptions oneShotCompiler
      [.connectSettled (.fulfilled .undefined)]
      { assets := ["a.js", "b.css"], compiler := oneShotCompiler } []
      (by decide) (by intro st hs; simp at hs) (by decide) (by decide)).1.trans (by decide),
   (oneShot_disposes_once_when_batch_settled manifestOptions oneShotCompiler
      [.connectSettled (.fulfilled .undefined)]
      { assets := ["a.js", "b.css"], compiler := oneShotCompiler }
      [.putFileSettled 1 (.rejected .obj), .putFileSettled 0 (.fulfilled .undefined),
       .done { assets := ["a.js"], compiler := oneShotCompiler },
       .putFileSettled 2 (.fulfilled .undefined),
       .done { assets := ["a.js"], compiler := oneShotCompiler }]
      (by decide) (by intro st hs; simp at hs) (by decide) (by decide)).2.2.trans (by decide),
   (oneShot_disposes_once_when_batch_settled manifestOptions oneShotCompiler
      [.connectSettled (.fulfilled .undefined)]
      { assets := ["a.js", "b.css"], compiler := oneShotCompiler }
      [.putFileSettled 1 (.rejected .obj), .putFileSettled 0 (.fulfilled .undefined),
       .done { assets := ["a.js"], compiler := oneShotCompiler }]
      (by decide) (by intro st hs; simp at hs) (by decide) (by decide)).2.2.trans (by decide)⟩

/-! ## Uploads do not depend on the credentials -/

theorem hook_sameUploads (w v : World) (file fullHash : String) (h : SameUploads w v) :
    SameUploads (hook w file fullHash) (hook v file fullHash) := by
  obtain ⟨h1, h2, h3, h4, h5, h6, h7, h8, h9, h10, h11⟩ := h
  have hg : getCacheValueByKey w.self file = getCacheValueByKey v.self file := by
    simp [getCacheValueByKey, h1]
  by_cases hc : getCacheValueByKey v.self file = .str fullHash
  · rw [hook_skip w file fullHash (hg.trans hc), hook_skip v file fullHash hc]
    exact ⟨h1, h2, h3, h4, h5, h6, h7, h8, h9, h10, h11⟩
  · simp [SameUploads, hook, hg, hc, uploadAsset, setCacheValueByKey, putFileCalls_append,
      h1, h2, h3, h4, h5, h6, h7, h8, h9, h10, h11]

theorem doneHook_sameUploads (w v : World) (stats : Stats) (h : SameUploads w v) :
    SameUploads (doneHook w stats) (doneHook v stats) := by
  obtain ⟨h1, h2, h3, h4, h5, h6, h7, h8, h9, h10, h11⟩ := h
  by_cases ha : stats.assets = []
  · rw [doneHook_empty w stats ha, doneHook_empty v stats ha]
    exact ⟨h1, h2, h3, h4, h5, h6, h7, h8, h9, h10, h11⟩
  · cases hf : v.self.isFirstUpload
    · rw [doneHook_later w stats (h5.trans hf) ha, doneHook_later v stats hf ha, h4]
      split
      · simp [SameUploads, uploadAsset, putFileCalls_append,
          h1, h2, h3, h4, h5, h6, h7, h8, h9, h10, h11]
      · exact ⟨h1, h2, h3, h4, h5, h6, h7, h8, h9, h10, h11⟩
    · have hb : bootstrapFiles w stats = bootstrapFiles v stats := by
        simp [bootstrapFiles, h4]
      have ht : uploadTrace w.self (bootstrapFiles v stats) =
          uploadTrace v.self (bootstrapFiles v stats) := uploadTrace_congr _ _ _ h2 h3
      rw [doneHook_first w stats (h5.trans hf) ha, doneHook_first v stats hf ha, hb]
      simp [SameUploads, putFileCalls_append, ht, h1, h2, h3, h4, h6, h7, h8, h9, h10, h11]

theorem putFileSettled_sameUploads (w v : World) (id : Nat) (s : Settlement)
    (h : SameUploads w v) : SameUploads (putFileSettled w id s) (putFileSettled v id s) := by
  obtain ⟨h1, h2, h3, h4, h5, h6, h7, h8, h9, h10, h11⟩ := h
  refine ⟨?_, ?_, ?_, ?_, ?_, ?_, ?_, ?_, ?_, ?_, ?_⟩
  any_goals simp only [putFileSettled_self, putFileCalls_putFileSettled]
  any_goals assumption
  all_goals
    unfold putFileSettled
    rw [h9]
    split <;> simp [h6, h7, h8, h9, h10]

theorem connectSettled_sameUploads (w v : World) (s t : Settlement) (h : SameUploads w v) :
    SameUploads (connectSettled w s) (connectSettled v t) := by
  obtain ⟨h1, h2, h3, h4, h5, h6, h7, h8, h9, h10, h11⟩ := h
  refine ⟨?_, ?_, ?_, ?_, ?_, ?_, ?_, ?_, ?_, ?_, ?_⟩
  any_goals simp only [connectSettled_self, putFileCalls_connectSettled]
  any_goals assumption
  all_goals
    unfold connectSettled
    split <;> split <;> simp [h6, h7, h8, h9, h10]

theorem step_sameUploads (w v : World) (e : Event) (h : SameUploads w v) :
    SameUploads (step w e) (step v e) := by
  cases e with
  | assetEmitted f fh =>
    simp only [step, h.2.2.2.2.2.1]
    split
    · exact hook_sameUploads w v f fh h
    · exact h
  | done st =>
    simp only [step, h.2.2.2.2.2.2.1]
    split
    · exact doneHook_sameUploads w v st h
    · exact h
  | putFileSettled id s => exact putFileSettled_sameUploads w v id s h
  | connectSettled s => exact connectSettled_sameUploads w v s s h

theorem run_sameUploads (w v : World) (es : List Event) (h : SameUploads w v) :
    SameUploads (run w es) (run v es) := by
  induction es generalizing w v with
  | nil => exact h
  | cons e es ih => exact ih _ _ (step_sameUploads w v e h)

theorem apply_sameUploads (o p : Options) (c : Compiler) (hmode : p.mode = o.mode)
    (hpath : p.uploadPath = o.uploadPath)
    (hman : p.uploadLaravelManifest = o.uploadLaravelManifest) :
    SameUploads (apply (World.fresh o) c) (apply (World.fresh p) c) := by
  by_cases hm : o.mode = .str "development"
  · obtain ⟨a1, a2, a3, a4, a5, a6, -, a8⟩ := apply_development o c hm
    obtain ⟨b1, b2, b3, b4, b5, b6, -, b8⟩ := apply_development p c (hmode.trans hm)
    simp [SameUploads, a1, a2, a3, a4, a5, a6, a8, b1, b2, b3, b4, b5, b6, b8,
      SSHWatchUploadWebpackPlugin.new, hpath, hman]
  · have hm2 : p.mode ≠ .str "development" := fun h => hm (hmode ▸ h)
    simp [SameUploads, apply, World.fresh, SSHWatchUploadWebpackPlugin.new, hm, hm2,
      putFileCalls, hpath, hman]

/-! ## No event makes a connect call -/

theorem connect_attempt_count (w : World) :
    connectCount (connect w).1.trace =
      connectCount w.trace + (if requiredFieldsPresent w.self then 1 else 0) := by
  rcases hh : w.self.host.truthy <;> rcases hp : w.self.port.truthy <;>
    rcases hu : w.self.username.truthy <;> rcases hk : w.self.privateKey.truthy <;>
    simp [connect, validateConnectionOptions, requiredFieldsPresent, hh, hp, hu, hk,
      connectCount_append, connectCount]

theorem connectCount_step (w : World) (e : Event) :
    connectCount (step w e).trace = connectCount w.trace := by
  cases e with
  | assetEmitted f h =>
    simp only [step]
    split
    · by_cases hc : getCacheValueByKey w.self f = .str h <;>
        simp [hook, hc, uploadAsset, connectCount_append, connectCount]
    · rfl
  | done st =>
    simp only [step]
    split
    · by_cases ha : st.assets = []
      · rw [doneHook_empty w st ha]
      · cases hf : w.self.isFirstUpload
        · rw [doneHook_later w st hf ha]
          split <;> simp [uploadAsset, connectCount_append, connectCount]
        · rw [doneHook_first w st hf ha]
          simp [connectCount_append, connectCount_uploadTrace]
    · rfl
  | putFileSettled id s =>
    simp only [step]
    unfold putFileSettled
    split
    · rfl
    · rename_i t _
      obtain ⟨m, hm⟩ := uploadAssetSettled_fst t.2 s
      simp [connectCount_append, hm, connectCount, (notifyJoins_effects _ _ _).2]
  | connectSettled s =>
    simp only [step]
    unfold connectSettled
    split
    · cases s <;> simp [promiseThen, consoleLog, connectCount_append, connectCount]
    · rfl

theorem connectCount_run (w : World) (es : List Event) :
    connectCount (run w es).trace = connectCount w.trace := by
  induction es generalizing w with
  | nil => rfl
  | cons e es ih => rw [run_cons, ih, connectCount_step]

theorem connectCount_apply (o : Options) (c : Compiler) :
    connectCount (apply (World.fresh o) c).trace =
      if o.mode = .str "development" ∧
          requiredFieldsPresent (SSHWatchUploadWebpackPlugin.new o) = true then 1 else 0 := by
  have hc := (connect_attempt_count (World.fresh o))
  by_cases hm : o.mode = .str "development"
  · have hmode : (World.fresh o).self.mode = .str "development" := hm
    have hi : connectCount (init (World.fresh o) c).trace =
        connectCount (connect (World.fresh o)).1.trace := by
      unfold init
      simp only []
      split <;> simp [openTheme, connectCount_append, connectCount]
    by_cases hw : c.watch = .bool true <;>
      simp [apply, hmode, hw, hi, hc, hm] <;> simp [World.fresh, connectCount]
  · simp [apply, World.fresh, SSHWatchUploadWebpackPlugin.new, hm, connectCount]

/-! ## C4 -/

/-- C4, as stated, fails: without a private key validation fails, yet `apply` taps the `done`
hook all the same, and the first build-done notification issues a `putFile` call. -/
theorem missing_field_still_uploads :
    requiredFieldsPresent (World.fresh keylessOptions).self = false
      ∧ (apply (World.fresh keylessOptions) oneShotCompiler).doneTapped = true
      ∧ putFileCalls (run (apply (World.fresh keylessOptions) oneShotCompiler)
          [.done { assets := ["app.js"], compiler := oneShotCompiler }]).trace =
        [("/work/dist/app.js", "/var/www/theme/app.js")] := by
  decide

/-- C4, amended: when a required connection field is missing, no transport connect call is
ever made, whatever notifications and settlements follow `apply`; the handlers are tapped as
usual in development mode, and the `putFile` calls issued for any sequence of events are
exactly those issued by a plugin with other (for instance complete) credentials and the same
mode, upload path and manifest switch. -/
theorem missing_field_no_connect_uploads_as_usual (o p : Options) (c : Compiler)
    (es : List Event)
    (hinv : requiredFieldsPresent (SSHWatchUploadWebpackPlugin.new o) = false)
    (hmode : p.mode = o.mode) (hpath : p.uploadPath = o.uploadPath)
    (hman : p.uploadLaravelManifest = o.uploadLaravelManifest) :
    connectCount (run (apply (World.fresh o) c) es).trace = 0
      ∧ putFileCalls (run (apply (World.fresh o) c) es).trace =
        putFileCalls (run (apply (World.fresh p) c) es).trace
      ∧ (o.mode = .str "development" →
          (run (apply (World.fresh o) c) es).doneTapped = true
            ∧ (run (apply (World.fresh o) c) es).assetEmittedTapped =
              decide (c.watch = .bool true)) := by
  refine ⟨?_, ?_, ?_⟩
  · rw [connectCount_run, connectCount_apply]
    simp [hinv]
  · exact (run_sameUploads _ _ es (apply_sameUploads o p c hmode hpath hman)).2.2.2.2.2.2.2.2.2.2
  · intro hm
    obtain ⟨-, -, -, -, ht, hd, -, -⟩ := apply_development o c hm
    obtain ⟨-, -, -, -, ka, kd, -⟩ := run_keeps (apply (World.fresh o) c) es
    exact ⟨kd.trans hd, ka.trans ht⟩

/-- C4, amended, on the sample configuration without private key, against the complete one. -/
theorem missing_field_no_connect_uploads_as_usual_witness :
    connectCount (run (apply (World.fresh keylessOptions) watchCompiler)
        [.done { assets := ["app.js"], compiler := watchCompiler },
         .assetEmitted "app.js" "3f2a"]).trace = 0
      ∧ putFileCalls (run (apply (World.fresh keylessOptions) watchCompiler)
          [.done { assets := ["app.js"], compiler := watchCompiler },
           .assetEmitted "app.js" "3f2a"]).trace =
        putFileCalls (run (apply (World.fresh sampleOptions) watchCompiler)
          [.done { assets := ["app.js"], compiler := watchCompiler },
           .assetEmitted "app.js" "3f2a"]).trace
      ∧ (run (apply (World.fresh keylessOptions) watchCompiler)
          [.done { assets := ["app.js"], compiler := watchCompiler },
           .assetEmitted "app.js" "3f2a"]).doneTapped = true
      ∧ (run (apply (World.fresh keylessOptions) watchCompiler)
          [.done { assets := ["app.js"], compiler := watchCompiler },
           .assetEmitted "app.js" "3f2a"]).assetEmittedTapped = true :=
  have h := missing_field_no_connect_uploads_as_usual keylessOptions sampleOptions watchCompiler
    [.done { assets := ["app.js"], compiler := watchCompiler }, .assetEmitted "app.js" "3f2a"]
    (by decide) (by decide) (by decide) (by decide)
  ⟨h.1, h.2.1, (h.2.2 (by decide)).1, (h.2.2 (by decide)).2.trans (by decide)⟩

end SSHWatchUpload
